import Mathlib

/-!
Verification of the ACPI discovery core of gopher-os (package `acpi`,
files `probe.go` and the table-layout file).

Physical memory is modelled as a total function `Nat → Nat`; every read
goes through `byteAt`, which reduces the stored value modulo 256, so the
model sees exactly the byte values the Go code sees.  Machine integers are
`Nat` with an explicit `% 2 ^ 64` (uintptr / uint64) or `% 2 ^ 32`
(uint32) at the points where the Go arithmetic can wrap.  The external
mapping primitive `vmm.Map` is a parameter `mapFn : Nat → Option Nat`
(`none` = success, `some code` = the opaque kernel error it returned),
and likewise `unmapFn` for `vmm.Unmap`.  The driver's reservation map
`mappedPages map[vmm.Page]struct{}` is modelled as a duplicate-free list
of page numbers in insertion order; all claims about it are order
insensitive.
-/

/-- `mem.PageSize` (x86-64 small page). -/
def pageSize : Nat := 4096

/-- `vmm.PageFromAddress`: the page number containing a physical address. -/
def pageFromAddress (addr : Nat) : Nat := addr / pageSize

/-- One byte of physical memory, as the Go code reads it. -/
def byteAt (m : Nat → Nat) (a : Nat) : Nat := m a % 256

/-- Little-endian `uint32` read at address `p` (x86 byte order, as the Go
code obtains by reinterpreting memory as a struct field). -/
def le32 (m : Nat → Nat) (p : Nat) : Nat :=
  byteAt m p + 256 * byteAt m (p + 1) + 256 ^ 2 * byteAt m (p + 2) +
    256 ^ 3 * byteAt m (p + 3)

/-- Little-endian `uint64` read at address `p`. -/
def le64 (m : Nat → Nat) (p : Nat) : Nat :=
  byteAt m p + 256 * byteAt m (p + 1) + 256 ^ 2 * byteAt m (p + 2) +
    256 ^ 3 * byteAt m (p + 3) + 256 ^ 4 * byteAt m (p + 4) +
    256 ^ 5 * byteAt m (p + 5) + 256 ^ 6 * byteAt m (p + 6) +
    256 ^ 7 * byteAt m (p + 7)

/-- The `uint8` accumulator of `validTable` after summing the first `n`
bytes starting at `tablePtr` (`sum += mem[tablePtr+i]`, 8-bit wraparound). -/
def checksumLoop (m : Nat → Nat) (tablePtr : Nat) : Nat → Nat
  | 0 => 0
  | n + 1 => (checksumLoop m tablePtr n + byteAt m (tablePtr + n)) % 256

/-- `validTable(tablePtr, tableLength)`: sums every byte in
`[tablePtr, tablePtr+tableLength)` into a `uint8` and returns true iff the
final sum is zero. -/
def validTable (m : Nat → Nat) (tablePtr tableLength : Nat) : Bool :=
  checksumLoop m tablePtr tableLength == 0

/-- Kernel errors reachable from this package: the two `acpi` sentinel
errors, plus the opaque errors returned by the external `vmm.Map`
primitive (distinct from both sentinels, since the Go code compares
errors by pointer identity). -/
inductive KernelError where
  | missingRSDP
  | tableChecksumMismatch
  | mapFailure (code : Nat)
deriving DecidableEq

/-- Outcome of `mapRegion`: the error (if any), the updated reservation
list `drv.mappedPages`, and the trace of pages passed to `mapFn`. -/
structure MapRegionOut where
  err : Option KernelError
  pages : List Nat
  calls : List Nat
deriving DecidableEq

/-- The page loop of `mapRegion`: skip pages already reserved, otherwise
call `mapFn` (aborting on failure) and record the page. -/
def mapPagesLoop (mapFn : Nat → Option Nat) :
    List Nat → List Nat → List Nat → MapRegionOut
  | [], s, calls => ⟨none, s, calls⟩
  | p :: rest, s, calls =>
    if p ∈ s then
      mapPagesLoop mapFn rest s calls
    else
      match mapFn p with
      | some e => ⟨some (KernelError.mapFailure e), s, calls ++ [p]⟩
      | none => mapPagesLoop mapFn rest (s ++ [p]) (calls ++ [p])

/-- The page range visited by `mapRegion`: `startAddr` is rounded down to
a page boundary, `startAddr + size + (PageSize-1)` is masked down to a
page boundary (in wrapping `uintptr` arithmetic), and the loop runs over
`PageFromAddress` of both bounds inclusively. -/
def mapRegionPages (startAddr size : Nat) : List Nat :=
  let endAddr := (startAddr + size + (pageSize - 1)) % 2 ^ 64 / pageSize * pageSize
  let sa := startAddr / pageSize * pageSize
  let lo := pageFromAddress sa
  let hi := pageFromAddress endAddr
  if hi < lo then [] else List.range' lo (hi - lo + 1)

/-- `(*acpiDriver).mapRegion(startAddr, size)` acting on reservation list
`s`. -/
def mapRegion (mapFn : Nat → Option Nat) (s : List Nat)
    (startAddr size : Nat) : MapRegionOut :=
  mapPagesLoop mapFn (mapRegionPages startAddr size) s []

/-- `sdtHeader`, the common header of every ACPI table; every field is
read little-endian from the mapped memory at the table address. -/
structure SdtHeader where
  signature : List Nat
  length : Nat
  revision : Nat
  checksum : Nat
  oemID : List Nat
  oemTableID : List Nat
  oemRevision : Nat
  creatorID : Nat
  creatorRevision : Nat
deriving DecidableEq

/-- `unsafe.Sizeof(sdtHeader{})`: 4+4+1+1+6+8+4+4+4 = 36, no padding. -/
def sizeofSdtHeader : Nat := 36

/-- Reinterpret the memory at `p` as an `sdtHeader` (field offsets as laid
out by the Go compiler on amd64). -/
def readSdtHeader (m : Nat → Nat) (p : Nat) : SdtHeader :=
  { signature := [byteAt m p, byteAt m (p + 1), byteAt m (p + 2), byteAt m (p + 3)]
    length := le32 m (p + 4)
    revision := byteAt m (p + 8)
    checksum := byteAt m (p + 9)
    oemID := (List.range 6).map fun i => byteAt m (p + 10 + i)
    oemTableID := (List.range 8).map fun i => byteAt m (p + 16 + i)
    oemRevision := le32 m (p + 24)
    creatorID := le32 m (p + 28)
    creatorRevision := le32 m (p + 32) }

/-- The `(header, err)` part of `mapACPITable`'s multi-value return:
either a parsed header or a kernel error. -/
inductive TableRes where
  | ok (header : SdtHeader)
  | err (e : KernelError)
deriving DecidableEq

/-- Outcome of `mapACPITable`: result plus updated reservation list.
Note that pages reserved before a checksum failure stay reserved. -/
structure MapTableOut where
  res : TableRes
  pages : List Nat
deriving DecidableEq

/-- `(*acpiDriver).mapACPITable(tableAddr)`: map the header region, read
the declared length, extend the mapping to the whole table, then verify
the checksum over the full table range. -/
def mapACPITable (mapFn : Nat → Option Nat) (m : Nat → Nat) (s : List Nat)
    (tableAddr : Nat) : MapTableOut :=
  let r1 := mapRegion mapFn s tableAddr sizeofSdtHeader
  match r1.err with
  | some e => ⟨TableRes.err e, r1.pages⟩
  | none =>
    let header := readSdtHeader m tableAddr
    let r2 := mapRegion mapFn r1.pages tableAddr header.length
    match r2.err with
    | some e => ⟨TableRes.err e, r2.pages⟩
    | none =>
      if validTable m tableAddr header.length then ⟨TableRes.ok header, r2.pages⟩
      else ⟨TableRes.err KernelError.tableChecksumMismatch, r2.pages⟩

/-- `header.length - uint32(sizeofHeader)` in wrapping `uint32`
arithmetic (`L` is a `uint32`, so `L < 2^32`). -/
def rootPayloadLen (L : Nat) : Nat := (L + 2 ^ 32 - sizeofSdtHeader) % 2 ^ 32

/-- The sub-table address array read by `parseRSDT`: `payloadLen >> 3`
8-byte pointers when the XSDT is in use, `payloadLen >> 2` 4-byte
pointers otherwise, consecutive and starting right after the header. -/
def sdtAddressList (m : Nat → Nat) (rsdtAddr : Nat) (useXSDT : Bool)
    (payloadLen : Nat) : List Nat :=
  match useXSDT with
  | true =>
    (List.range (payloadLen / 8)).map fun i =>
      le64 m (rsdtAddr + sizeofSdtHeader + 8 * i)
  | false =>
    (List.range (payloadLen / 4)).map fun i =>
      le32 m (rsdtAddr + sizeofSdtHeader + 4 * i)

/-- Outcome of `parseRSDT`: the returned error (if any), the final
reservation list, and the `(signature, address, length)` lines reported
to the diagnostic sink for each successfully mapped sub-table. -/
structure WalkOut where
  err : Option KernelError
  pages : List Nat
  reported : List (List Nat × Nat × Nat)
deriving DecidableEq

/-- The sub-table loop of `parseRSDT`: a checksum mismatch skips the
entry (`continue`), any other error aborts the walk (`return err`), and
a success reports the table. -/
def walkLoop (mapFn : Nat → Option Nat) (m : Nat → Nat) :
    List Nat → List Nat → List (List Nat × Nat × Nat) → WalkOut
  | [], s, rep => ⟨none, s, rep⟩
  | addr :: rest, s, rep =>
    let r := mapACPITable mapFn m s addr
    match r.res with
    | TableRes.err KernelError.tableChecksumMismatch => walkLoop mapFn m rest r.pages rep
    | TableRes.err e => ⟨some e, r.pages, rep⟩
    | TableRes.ok header =>
      walkLoop mapFn m rest r.pages (rep ++ [(header.signature, addr, header.length)])

/-- `(*acpiDriver).parseRSDT`: map the root table (any failure, checksum
included, is returned as-is), derive the sub-table address array, then
walk it. -/
def parseRSDT (mapFn : Nat → Option Nat) (m : Nat → Nat) (rsdtAddr : Nat)
    (useXSDT : Bool) (s : List Nat) : WalkOut :=
  let r := mapACPITable mapFn m s rsdtAddr
  match r.res with
  | TableRes.err e => ⟨some e, r.pages, []⟩
  | TableRes.ok header =>
    walkLoop mapFn m (sdtAddressList m rsdtAddr useXSDT (rootPayloadLen header.length))
      r.pages []

/-- Outcome of `DriverInit`: the error returned to the caller, the pages
passed to `unmapFn` by the deferred cleanup (each reservation exactly
once), and whether `allocator.ReclaimRegions` was called. -/
structure DriverInitOut where
  err : Option KernelError
  unmapCalls : List Nat
  reclaimed : Bool
deriving DecidableEq

/-- `(*acpiDriver).DriverInit`: run `parseRSDT` with a fresh reservation
map; the deferred block unmaps every reserved page (noting failures) and
calls `allocator.ReclaimRegions` only when every unmap succeeded. -/
def DriverInit (mapFn unmapFn : Nat → Option Nat) (m : Nat → Nat)
    (rsdtAddr : Nat) (useXSDT : Bool) : DriverInitOut :=
  let r := parseRSDT mapFn m rsdtAddr useXSDT []
  let gotUnmapErr := r.pages.any fun p => (unmapFn p).isSome
  ⟨r.err, r.pages, !gotUnmapErr⟩

/-- `rsdpLocationLow`. -/
def rsdpLocationLow : Nat := 0xe0000

/-- `rsdpLocationHi`. -/
def rsdpLocationHi : Nat := 0xfffff

/-- `rsdpRevisionACPI1`. -/
def rsdpRevisionACPI1 : Nat := 0

/-- `rsdtSignature`: the bytes of "RSD PTR ". -/
def rsdtSignature : List Nat := [82, 83, 68, 32, 80, 84, 82, 32]

/-- `unsafe.Sizeof(rsdpDescriptor{})`: 8+1+6+1+4 = 20, no padding. -/
def sizeofRsdpDescriptor : Nat := 20

/-- `unsafe.Sizeof(rsdpDescriptor2{})` on amd64: the fields end at byte
36 (20 + 4 + 8 + 1 + 3) but the struct has 8-byte alignment because of
the `uint64` field, so the size is padded to 40. -/
def sizeofRsdpDescriptor2 : Nat := 40

/-- The pages of the scan window `[rsdpLocationLow, rsdpLocationHi]`,
mapped before the scan and unmapped by the deferred cleanup. -/
def windowPages : List Nat :=
  List.range' (pageFromAddress rsdpLocationLow)
    (pageFromAddress rsdpLocationHi - pageFromAddress rsdpLocationLow + 1)

/-- The identity-mapping loop of `locateRSDT`: map each window page,
returning the first mapping error. -/
def mapWindowLoop (mapFn : Nat → Option Nat) : List Nat → Option Nat
  | [] => none
  | p :: rest =>
    match mapFn p with
    | some e => some e
    | none => mapWindowLoop mapFn rest

/-- The 16-byte-aligned candidate pointers visited by the scan loop
(`curPtr := rsdpLocationLow; curPtr < rsdpLocationHi; curPtr += 16`). -/
def rsdpCandidates : List Nat :=
  List.range' rsdpLocationLow ((rsdpLocationHi - rsdpLocationLow + 15) / 16) 16

/-- The signature comparison of the scan loop (the `for i, b := range
rsdtSignature` loop, unrolled): all 8 bytes at `p` equal "RSD PTR ". -/
def sigMatch (m : Nat → Nat) (p : Nat) : Bool :=
  (byteAt m p == 82) && (byteAt m (p + 1) == 83) && (byteAt m (p + 2) == 68) &&
    (byteAt m (p + 3) == 32) && (byteAt m (p + 4) == 80) &&
    (byteAt m (p + 5) == 84) && (byteAt m (p + 6) == 82) &&
    (byteAt m (p + 7) == 32)

/-- One iteration of the scan loop at candidate `p`: `none` means
"continue scanning"; `some (addr, useXSDT)` means `locateRSDT` returns.
Revision 0 takes the ACPI-1.0 path (checksum over the 20-byte V1
structure, 32-bit root address); any other revision takes the extended
path (checksum over the 40-byte extended structure, 64-bit address). -/
def scanStep (m : Nat → Nat) (p : Nat) : Option (Nat × Bool) :=
  if sigMatch m p then
    if byteAt m (p + 15) == rsdpRevisionACPI1 then
      if validTable m p sizeofRsdpDescriptor then some (le32 m (p + 16), false)
      else none
    else
      if validTable m p sizeofRsdpDescriptor2 then some (le64 m (p + 24), true)
      else none
  else none

/-- The candidate scan loop of `locateRSDT`. -/
def scanLoop (m : Nat → Nat) : List Nat → Option (Nat × Bool)
  | [] => none
  | p :: rest =>
    match scanStep m p with
    | some r => some r
    | none => scanLoop m rest

/-- Result of `locateRSDT`'s `(uintptr, bool, *kernel.Error)` return. -/
inductive LocateRes where
  | found (addr : Nat) (useXSDT : Bool)
  | err (e : KernelError)
deriving DecidableEq

/-- Outcome of `locateRSDT`: its result plus the pages passed to
`unmapFn` by the deferred cleanup (which walks the whole window
unconditionally, ignoring unmap errors). -/
structure LocateOut where
  res : LocateRes
  unmapCalls : List Nat
deriving DecidableEq

/-- `locateRSDT()`: identity-map the scan window (propagating a mapping
error), scan the 16-byte-aligned candidates for a valid RSDP, and in all
cases unmap the whole window on return. -/
def locateRSDT (mapFn : Nat → Option Nat) (m : Nat → Nat) : LocateOut :=
  match mapWindowLoop mapFn windowPages with
  | some e => ⟨LocateRes.err (KernelError.mapFailure e), windowPages⟩
  | none =>
    match scanLoop m rsdpCandidates with
    | some (addr, x) => ⟨LocateRes.found addr x, windowPages⟩
    | none => ⟨LocateRes.err KernelError.missingRSDP, windowPages⟩

/-- `probeForACPI()`: a driver instance carrying `locateRSDT`'s address
and width flag on success, `nil` when `locateRSDT` failed. -/
def probeForACPI (mapFn : Nat → Option Nat) (m : Nat → Nat) :
    Option (Nat × Bool) :=
  match locateRSDT mapFn m with
  | ⟨LocateRes.found addr x, _⟩ => some (addr, x)
  | ⟨LocateRes.err _, _⟩ => none

/-- A table image whose header declares length 4 and whose bytes sum to
1 mod 256: mapping it yields a checksum mismatch. -/
def memBadTable : Nat → Nat := fun a => if a = 0 then 1 else if a = 4 then 4 else 0
/-- A valid root-table image at address 0: declared length `36 + 16 = 52`
and byte sum 0 mod 256. -/
def memRoot52 : Nat → Nat := fun a => if a = 4 then 52 else if a = 9 then 204 else 0
/-- A firmware memory image holding the given bytes at the start of the
RSDP scan window and zero bytes everywhere else. -/
def regionMem (bytes : List Nat) : Nat → Nat := fun a =>
  if rsdpLocationLow ≤ a ∧ a < rsdpLocationLow + bytes.length then
    bytes.getD (a - rsdpLocationLow) 0
  else 0
/-- RSDP image: revision 2 whose self-declared length field is 20 and
whose first 20 bytes sum to 0 mod 256 (so the checksum over the
self-declared length is valid), while the sums over the fixed extended
struct size — 40 bytes with amd64 trailing padding, or the 36 declared
bytes — are both nonzero. -/
def bytesC1Cex : List Nat :=
  [82, 83, 68, 32, 80, 84, 82, 32, 223, 0, 0, 0, 0, 0, 0, 2, 0, 0, 0, 0,
    20, 0, 0, 0, 52, 18, 0, 0, 0, 0, 0, 0, 0, 0, 0, 0, 0, 0, 0, 0]
/-- RSDP image: revision 2, all 40 in-memory struct bytes sum to 0 mod
256, extended root address 0x1234. -/
def bytesC1Valid : List Nat :=
  [82, 83, 68, 32, 80, 84, 82, 32, 117, 0, 0, 0, 0, 0, 0, 2, 0, 0, 0, 0,
    36, 0, 0, 0, 52, 18, 0, 0, 0, 0, 0, 0, 0, 0, 0, 0, 0, 0, 0, 0]
/-- RSDP image: revision 2 with a valid 20-byte V1 checksum (sum 1024),
32-bit root address 0x9999, and also a valid 40-byte extended checksum
(sum 1280), 64-bit extended address 0x5555. -/
def bytesC2Cex : List Nat :=
  [82, 83, 68, 32, 80, 84, 82, 32, 173, 0, 0, 0, 0, 0, 0, 2, 153, 153, 0, 0,
    36, 0, 0, 0, 85, 85, 0, 0, 0, 0, 0, 0, 50, 0, 0, 0, 0, 0, 0, 0]
/-- RSDP image: revision 0 with a valid 20-byte V1 checksum and 32-bit
root address 0x9999. -/
def bytesC2Valid : List Nat :=
  [82, 83, 68, 32, 80, 84, 82, 32, 175, 0, 0, 0, 0, 0, 0, 0, 153, 153, 0, 0]

/-! ## Helper lemmas -/

lemma byteAt_lt (m : Nat → Nat) (a : Nat) : byteAt m a < 256 :=
  Nat.mod_lt _ (by norm_num)

lemma le32_lt (m : Nat → Nat) (p : Nat) : le32 m p < 2 ^ 32 := by
  have h0 := byteAt_lt m p
  have h1 := byteAt_lt m (p + 1)
  have h2 := byteAt_lt m (p + 2)
  have h3 := byteAt_lt m (p + 3)
  unfold le32
  omega

/-- The 8-bit accumulator of `validTable` equals the full byte sum mod 256. -/
lemma checksumLoop_eq_sum (m : Nat → Nat) (p : Nat) :
    ∀ n, checksumLoop m p n = (∑ i in Finset.range n, byteAt m (p + i)) % 256 := by
  intro n
  induction n with
  | zero => simp [checksumLoop]
  | succ k ih =>
    rw [checksumLoop, ih, Finset.sum_range_succ]
    omega

lemma validTable_iff (m : Nat → Nat) (p len : Nat) :
    validTable m p len = true ↔
      (∑ i in Finset.range len, byteAt m (p + i)) % 256 = 0 := by
  rw [validTable, checksumLoop_eq_sum, beq_iff_eq]

/-- If every page of the list is already reserved, the page loop is a
no-op: no error, unchanged reservation list, no call to the mapping
primitive. -/
lemma mapPagesLoop_all_present (mapFn : Nat → Option Nat) :
    ∀ (l s c : List Nat), (∀ p ∈ l, p ∈ s) →
      mapPagesLoop mapFn l s c = ⟨none, s, c⟩ := by
  intro l
  induction l with
  | nil => intro s c _; rfl
  | cons q rest ih =>
    intro s c h
    rw [mapPagesLoop, if_pos (h q (List.mem_cons_self q rest))]
    exact ih s c fun p hp => h p (List.mem_cons_of_mem q hp)

/-- Unfolding equation for the page loop on a nonempty page list. -/
lemma mapPagesLoop_cons (mapFn : Nat → Option Nat) (q : Nat)
    (rest s c : List Nat) :
    mapPagesLoop mapFn (q :: rest) s c =
      if q ∈ s then mapPagesLoop mapFn rest s c
      else
        match mapFn q with
        | some e => ⟨some (KernelError.mapFailure e), s, c ++ [q]⟩
        | none => mapPagesLoop mapFn rest (s ++ [q]) (c ++ [q]) := rfl

/-- When the mapping primitive always succeeds, the page loop succeeds,
the final reservation list holds exactly the old pages plus the visited
pages, and the primitive is called exactly on the visited pages that
were not already reserved. -/
lemma mapPagesLoop_ok (mapFn : Nat → Option Nat) (hok : ∀ p, mapFn p = none) :
    ∀ (l s c : List Nat),
      (mapPagesLoop mapFn l s c).err = none ∧
      (∀ p, p ∈ (mapPagesLoop mapFn l s c).pages ↔ p ∈ s ∨ p ∈ l) ∧
      (∀ p, p ∈ (mapPagesLoop mapFn l s c).calls ↔ p ∈ c ∨ (p ∈ l ∧ p ∉ s)) := by
  intro l
  induction l with
  | nil =>
    intro s c
    refine ⟨rfl, fun p => ?_, fun p => ?_⟩ <;> simp [mapPagesLoop]
  | cons q rest ih =>
    intro s c
    by_cases hq : q ∈ s
    · rw [mapPagesLoop_cons, if_pos hq]
      obtain ⟨h1, h2, h3⟩ := ih s c
      refine ⟨h1, fun p => ?_, fun p => ?_⟩
      · rw [h2, List.mem_cons]
        constructor
        · tauto
        · rintro (h | rfl | h) <;> tauto
      · rw [h3, List.mem_cons]
        constructor
        · tauto
        · rintro (h | ⟨rfl | h, h'⟩) <;> tauto
    · rw [mapPagesLoop_cons, if_neg hq, hok q]
      obtain ⟨h1, h2, h3⟩ := ih (s ++ [q]) (c ++ [q])
      refine ⟨h1, fun p => ?_, fun p => ?_⟩
      · rw [h2]
        simp only [List.mem_append, List.mem_cons, List.not_mem_nil, or_false]
        tauto
      · rw [h3]
        simp only [List.mem_append, List.mem_cons, List.not_mem_nil, or_false]
        constructor
        · rintro ((h | rfl) | ⟨h, h'⟩)
          · exact Or.inl h
          · exact Or.inr ⟨Or.inl rfl, hq⟩
          · exact Or.inr ⟨Or.inr h, fun hs => h' (Or.inl hs)⟩
        · rintro (h | ⟨rfl | h, h'⟩)
          · exact Or.inl (Or.inl h)
          · exact Or.inl (Or.inr rfl)
          · by_cases hpq : p = q
            · exact Or.inl (Or.inr hpq)
            · exact Or.inr ⟨h, by simp [h', hpq]⟩

/-- On success, every visited page ends up reserved (and reservations are
never dropped), for an arbitrary mapping primitive. -/
lemma mapPagesLoop_err_none_mem (mapFn : Nat → Option Nat) :
    ∀ (l s c : List Nat), (mapPagesLoop mapFn l s c).err = none →
      ∀ p, p ∈ s ∨ p ∈ l → p ∈ (mapPagesLoop mapFn l s c).pages := by
  intro l
  induction l with
  | nil =>
    intro s c _ p hp
    simpa [mapPagesLoop] using hp.resolve_right (by simp)
  | cons q rest ih =>
    intro s c herr p hp
    by_cases hq : q ∈ s
    · rw [mapPagesLoop_cons, if_pos hq] at herr ⊢
      refine ih s c herr p ?_
      rcases hp with h | h
      · exact Or.inl h
      · rcases List.mem_cons.mp h with rfl | h
        · exact Or.inl hq
        · exact Or.inr h
    · cases hmap : mapFn q with
      | some e =>
        rw [mapPagesLoop_cons, if_neg hq, hmap] at herr
        exact absurd herr (by simp)
      | none =>
        rw [mapPagesLoop_cons, if_neg hq, hmap] at herr ⊢
        refine ih (s ++ [q]) (c ++ [q]) herr p ?_
        rcases hp with h | h
        · exact Or.inl (List.mem_append.mpr (Or.inl h))
        · rcases List.mem_cons.mp h with rfl | h
          · exact Or.inl (List.mem_append.mpr (Or.inr (by simp)))
          · exact Or.inr h

/-- Every page the loop passes to the mapping primitive was either
already in the call trace or was not yet reserved when the loop started
(for an arbitrary mapping primitive, failing or not). -/
lemma mapPagesLoop_calls_sub (mapFn : Nat → Option Nat) :
    ∀ (l s c : List Nat), ∀ p ∈ (mapPagesLoop mapFn l s c).calls,
      p ∈ c ∨ (p ∈ l ∧ p ∉ s) := by
  intro l
  induction l with
  | nil => intro s c p hp; exact Or.inl (by simpa [mapPagesLoop] using hp)
  | cons q rest ih =>
    intro s c p hp
    by_cases hq : q ∈ s
    · rw [mapPagesLoop_cons, if_pos hq] at hp
      rcases ih s c p hp with h | ⟨h, h'⟩
      · exact Or.inl h
      · exact Or.inr ⟨List.mem_cons_of_mem q h, h'⟩
    · cases hmap : mapFn q with
      | some e =>
        rw [mapPagesLoop_cons, if_neg hq, hmap] at hp
        simp only at hp
        rcases List.mem_append.mp hp with h | h
        · exact Or.inl h
        · have hpq : p = q := List.mem_singleton.mp h
          subst hpq
          exact Or.inr ⟨List.mem_cons_self p rest, hq⟩
      | none =>
        rw [mapPagesLoop_cons, if_neg hq, hmap] at hp
        rcases ih (s ++ [q]) (c ++ [q]) p hp with h | ⟨h, h'⟩
        · rcases List.mem_append.mp h with h | h
          · exact Or.inl h
          · have hpq : p = q := List.mem_singleton.mp h
            subst hpq
            exact Or.inr ⟨List.mem_cons_self p rest, hq⟩
        · refine Or.inr ⟨List.mem_cons_of_mem q h, fun hs => h' ?_⟩
          exact List.mem_append.mpr (Or.inl hs)

/-- The page loop never duplicates a reservation. -/
lemma mapPagesLoop_nodup (mapFn : Nat → Option Nat) :
    ∀ (l s c : List Nat), s.Nodup → (mapPagesLoop mapFn l s c).pages.Nodup := by
  intro l
  induction l with
  | nil => intro s c hs; exact hs
  | cons q rest ih =>
    intro s c hs
    by_cases hq : q ∈ s
    · rw [mapPagesLoop_cons, if_pos hq]; exact ih s c hs
    · cases hmap : mapFn q with
      | some e => rw [mapPagesLoop_cons, if_neg hq, hmap]; exact hs
      | none =>
        rw [mapPagesLoop_cons, if_neg hq, hmap]
        refine ih (s ++ [q]) (c ++ [q]) ?_
        simpa [List.nodup_append] using ⟨hs, hq⟩

/-- Mapping the scan window succeeds when the primitive succeeds on every
window page. -/
lemma mapWindowLoop_ok (mapFn : Nat → Option Nat) :
    ∀ l : List Nat, (∀ p ∈ l, mapFn p = none) → mapWindowLoop mapFn l = none := by
  intro l
  induction l with
  | nil => intro _; rfl
  | cons q rest ih =>
    intro h
    rw [mapWindowLoop, h q (List.mem_cons_self q rest)]
    exact ih fun p hp => h p (List.mem_cons_of_mem q hp)

/-- A scan over candidates none of which yields a hit returns nothing. -/
lemma scanLoop_none (m : Nat → Nat) :
    ∀ l : List Nat, (∀ q ∈ l, scanStep m q = none) → scanLoop m l = none := by
  intro l
  induction l with
  | nil => intro _; rfl
  | cons q rest ih =>
    intro h
    rw [scanLoop, h q (List.mem_cons_self q rest)]
    exact ih fun p hp => h p (List.mem_cons_of_mem q hp)

/-- If candidate `p` yields a hit and every other candidate yields
nothing, the scan returns `p`'s hit. -/
lemma scanLoop_hit (m : Nat → Nat) (p : Nat) (r : Nat × Bool) :
    ∀ l : List Nat, p ∈ l → (∀ q ∈ l, q ≠ p → scanStep m q = none) →
      scanStep m p = some r → scanLoop m l = some r := by
  intro l
  induction l with
  | nil => intro h; exact absurd h (List.not_mem_nil p)
  | cons q rest ih =>
    intro hmem hothers hstep
    by_cases hqp : q = p
    · subst hqp
      rw [scanLoop, hstep]
    · rw [scanLoop, hothers q (List.mem_cons_self q rest) hqp]
      refine ih ?_ (fun x hx hxp => hothers x (List.mem_cons_of_mem q hx) hxp) hstep
      rcases List.mem_cons.mp hmem with h | h
      · exact absurd h.symm hqp
      · exact h

/-- A candidate whose first byte is not 'R' fails the signature test. -/
lemma sigMatch_false_of_first (m : Nat → Nat) (p : Nat)
    (h : byteAt m p ≠ 82) : sigMatch m p = false := by
  rw [sigMatch, beq_eq_false_iff_ne.mpr h]
  simp

/-- `mapRegion` never duplicates a reservation. -/
lemma mapRegion_nodup (mapFn : Nat → Option Nat) (s : List Nat)
    (a sz : Nat) (hs : s.Nodup) : (mapRegion mapFn s a sz).pages.Nodup :=
  mapPagesLoop_nodup mapFn _ s [] hs

/-- `mapACPITable` never duplicates a reservation. -/
lemma mapACPITable_nodup (mapFn : Nat → Option Nat) (m : Nat → Nat)
    (s : List Nat) (a : Nat) (hs : s.Nodup) :
    (mapACPITable mapFn m s a).pages.Nodup := by
  have h1 : (mapRegion mapFn s a sizeofSdtHeader).pages.Nodup :=
    mapRegion_nodup mapFn s a sizeofSdtHeader hs
  have h2 := mapRegion_nodup mapFn (mapRegion mapFn s a sizeofSdtHeader).pages a
    (readSdtHeader m a).length h1
  rw [mapACPITable]
  split
  · exact h1
  · dsimp only
    split
    · exact h2
    · split <;> exact h2

/-- The sub-table walk never duplicates a reservation. -/
lemma walkLoop_nodup (mapFn : Nat → Option Nat) (m : Nat → Nat) :
    ∀ (l s : List Nat) (rep : List (List Nat × Nat × Nat)), s.Nodup →
      (walkLoop mapFn m l s rep).pages.Nodup := by
  intro l
  induction l with
  | nil => intro s rep hs; exact hs
  | cons addr rest ih =>
    intro s rep hs
    have hr := mapACPITable_nodup mapFn m s addr hs
    rw [walkLoop]
    cases (mapACPITable mapFn m s addr).res with
    | ok header => exact ih _ _ hr
    | err e =>
      cases e with
      | missingRSDP => exact hr
      | tableChecksumMismatch => exact ih _ _ hr
      | mapFailure c => exact hr

/-- `parseRSDT` produces a duplicate-free reservation list. -/
lemma parseRSDT_nodup (mapFn : Nat → Option Nat) (m : Nat → Nat)
    (rsdtAddr : Nat) (useXSDT : Bool) (s : List Nat) (hs : s.Nodup) :
    (parseRSDT mapFn m rsdtAddr useXSDT s).pages.Nodup := by
  rw [parseRSDT]
  have hr := mapACPITable_nodup mapFn m s rsdtAddr hs
  cases (mapACPITable mapFn m s rsdtAddr).res with
  | ok header => exact walkLoop_nodup mapFn m _ _ _ hr
  | err e => exact hr

/-! ## Claim theorems -/

/-- C7: `validTable(address, length)` returns true iff the sum of the
`length` bytes in `[address, address+length)`, accumulated as an 8-bit
unsigned value, is exactly zero (it is a pure function of the memory
contents, with no side effects and no error path); consequently it
returns true on every buffer whose byte sum is 0 mod 256, and changing
any single byte of such a buffer makes it return false. -/
theorem validTable_byte_sum_spec :
    (∀ (m : Nat → Nat) (p len : Nat),
      validTable m p len = true ↔
        (∑ i in Finset.range len, byteAt m (p + i)) % 256 = 0) ∧
    (∀ (m m' : Nat → Nat) (p len j : Nat), j < len →
      (∀ a, a ≠ p + j → m' a = m a) → byteAt m' (p + j) ≠ byteAt m (p + j) →
      validTable m p len = true → validTable m' p len = false) := by
  refine ⟨validTable_iff, ?_⟩
  intro m m' p len j hj hagree hflip hvalid
  by_contra hfalse
  have hvalid' : validTable m' p len = true := by
    cases h : validTable m' p len
    · exact absurd h hfalse
    · rfl
  rw [validTable_iff] at hvalid hvalid'
  have hR : ∑ i in (Finset.range len).erase j, byteAt m' (p + i)
      = ∑ i in (Finset.range len).erase j, byteAt m (p + i) := by
    refine Finset.sum_congr rfl fun i hi => ?_
    have hij : i ≠ j := (Finset.mem_erase.mp hi).1
    have hadd : p + i ≠ p + j := fun hc => hij (Nat.add_left_cancel hc)
    unfold byteAt
    rw [hagree _ hadd]
  have hjmem : j ∈ Finset.range len := Finset.mem_range.mpr hj
  have e1 := Finset.add_sum_erase (Finset.range len)
    (fun i => byteAt m (p + i)) hjmem
  have e2 := Finset.add_sum_erase (Finset.range len)
    (fun i => byteAt m' (p + i)) hjmem
  simp only at e1 e2
  have hA : (byteAt m (p + j) +
      ∑ i in (Finset.range len).erase j, byteAt m (p + i)) % 256 = 0 := by
    rw [e1]; exact hvalid
  have hB : (byteAt m' (p + j) +
      ∑ i in (Finset.range len).erase j, byteAt m (p + i)) % 256 = 0 := by
    rw [← hR, e2]; exact hvalid'
  have hb := byteAt_lt m (p + j)
  have hb' := byteAt_lt m' (p + j)
  exact hflip (by omega)

/-- Witness for C7: the two-byte buffer `[128, 128]` sums to 0 mod 256
and validates; flipping its first byte to 5 makes validation fail. -/
theorem validTable_byte_sum_spec_witness :
    validTable (fun _ => 128) 0 2 = true ∧
      validTable (fun a => if a = 0 then 5 else 128) 0 2 = false := by
  refine ⟨by decide, ?_⟩
  exact validTable_byte_sum_spec.2 (fun _ => 128)
    (fun a => if a = 0 then 5 else 128) 0 2 0 (by decide)
    (fun a ha => if_neg ha) (by decide) (by decide)

/-- Unfolded form of the page-range computation of `mapRegion`
(`pageFromAddress` applied to the rounded bounds). -/
lemma mapRegionPages_def (startAddr size : Nat) :
    mapRegionPages startAddr size =
      if (startAddr + size + (pageSize - 1)) % 2 ^ 64 / pageSize * pageSize / pageSize
          < startAddr / pageSize * pageSize / pageSize then []
      else
        List.range' (startAddr / pageSize * pageSize / pageSize)
          ((startAddr + size + (pageSize - 1)) % 2 ^ 64 / pageSize * pageSize / pageSize
            - startAddr / pageSize * pageSize / pageSize + 1) := rfl

/-- When the rounded end address does not wrap, the visited page range is
`[addr / pageSize, (addr + size + pageSize - 1) / pageSize]` inclusive. -/
lemma mapRegionPages_mem (addr size : Nat)
    (hnw : addr + size + (pageSize - 1) < 2 ^ 64) (p : Nat) :
    p ∈ mapRegionPages addr size ↔
      addr / pageSize ≤ p ∧ p ≤ (addr + size + (pageSize - 1)) / pageSize := by
  have hpos : 0 < pageSize := by norm_num [pageSize]
  have hlo : addr / pageSize * pageSize / pageSize = addr / pageSize :=
    Nat.mul_div_cancel _ hpos
  have hhiraw : (addr + size + (pageSize - 1)) % 2 ^ 64 = addr + size + (pageSize - 1) :=
    Nat.mod_eq_of_lt hnw
  have hhi : (addr + size + (pageSize - 1)) % 2 ^ 64 / pageSize * pageSize / pageSize
      = (addr + size + (pageSize - 1)) / pageSize := by
    rw [hhiraw, Nat.mul_div_cancel _ hpos]
  have hle : addr / pageSize ≤ (addr + size + (pageSize - 1)) / pageSize :=
    Nat.div_le_div_right (by omega)
  rw [mapRegionPages_def, hlo, hhi, if_neg (by omega), List.mem_range'_1]
  omega

/-- C3 counterexample: with `address = 0`, `size = 1` the byte range
`[0, 1)` intersects only page 0 (the page containing `address + size - 1`
is page 0), yet `reserve` maps and records pages 0 and 1. -/
theorem mapRegion_exact_pages_cex :
    (mapRegion (fun _ => none) [] 0 1).pages = [0, 1] ∧
      pageFromAddress (0 + 1 - 1) = 0 := by
  constructor <;> decide

/-- C3 amended: when every page mapping succeeds and the rounded end
address does not wrap, `reserve(address, size)` maps and records exactly
the pages from the page containing `address` through page
`(address + size + pageSize - 1) / pageSize` — i.e. the pages
intersecting `[address, address + size)` plus one extra page just past
the rounded-up end — and no other page is mapped or added to the
reservation set by that call. -/
theorem mapRegion_pages_spec (mapFn : Nat → Option Nat) (s : List Nat)
    (addr size : Nat) (hok : ∀ p, mapFn p = none)
    (hnw : addr + size + (pageSize - 1) < 2 ^ 64) :
    (mapRegion mapFn s addr size).err = none ∧
    (∀ p, p ∈ (mapRegion mapFn s addr size).pages ↔
      p ∈ s ∨ (addr / pageSize ≤ p ∧
        p ≤ (addr + size + (pageSize - 1)) / pageSize)) ∧
    (∀ p, p ∈ (mapRegion mapFn s addr size).calls ↔
      (addr / pageSize ≤ p ∧ p ≤ (addr + size + (pageSize - 1)) / pageSize) ∧
        p ∉ s) := by
  obtain ⟨h1, h2, h3⟩ := mapPagesLoop_ok mapFn hok (mapRegionPages addr size) s []
  refine ⟨h1, fun p => ?_, fun p => ?_⟩
  · rw [mapRegion] at *
    rw [h2 p, mapRegionPages_mem addr size hnw]
  · rw [mapRegion] at *
    rw [h3 p, mapRegionPages_mem addr size hnw]
    simp

/-- Witness for C3 (amended): reserving 200 bytes at address 8000 maps
pages 1 through 3 (bytes 8000-8199 live in pages 1 and 2; page 3 is the
extra page) and nothing else. -/
theorem mapRegion_pages_spec_witness :
    (mapRegion (fun _ => none) [] 8000 200).err = none ∧
      (2 ∈ (mapRegion (fun _ => none) [] 8000 200).pages ↔
        2 ∈ ([] : List Nat) ∨ (8000 / pageSize ≤ 2 ∧
          2 ≤ (8000 + 200 + (pageSize - 1)) / pageSize)) := by
  obtain ⟨h1, h2, h3⟩ := mapRegion_pages_spec (fun _ => none) [] 8000 200
    (fun _ => rfl) (by decide)
  exact ⟨h1, h2 2⟩

/-- C10 counterexample: the ranges `[0, 1)` (pages mapped: 0 and 1) and
`[0, 8192)` overlap, yet reserving the second range after the first
grows the reservation set from `[0, 1]` to `[0, 1, 2]` — an overlapping
(but not contained) second range does not leave the set unchanged. -/
theorem mapRegion_overlap_cex :
    (mapRegion (fun _ => none) [] 0 1).pages = [0, 1] ∧
      (mapRegion (fun _ => none)
        (mapRegion (fun _ => none) [] 0 1).pages 0 8192).pages = [0, 1, 2] ∧
      (mapRegion (fun _ => none)
          (mapRegion (fun _ => none) [] 0 1).pages 0 8192).pages ≠
        (mapRegion (fun _ => none) [] 0 1).pages := by
  refine ⟨by decide, by decide, by decide⟩

/-- C10 amended: reservation is idempotent for a repeated identical
range — after a successful `reserve(address, size)`, calling it again
with the same range returns success, leaves the reservation set
unchanged in size and content, and passes no page at all to the mapping
primitive; moreover in every call (any range, any primitive) no page
already present in the set is passed to the mapping primitive again. -/
theorem mapRegion_idempotent :
    (∀ (mapFn : Nat → Option Nat) (s : List Nat) (addr size : Nat),
      (mapRegion mapFn s addr size).err = none →
      mapRegion mapFn (mapRegion mapFn s addr size).pages addr size =
        ⟨none, (mapRegion mapFn s addr size).pages, []⟩) ∧
    (∀ (mapFn : Nat → Option Nat) (s : List Nat) (addr size : Nat),
      ∀ p ∈ (mapRegion mapFn s addr size).calls, p ∉ s) := by
  constructor
  · intro mapFn s addr size herr
    have hall : ∀ p ∈ mapRegionPages addr size,
        p ∈ (mapRegion mapFn s addr size).pages := fun p hp =>
      mapPagesLoop_err_none_mem mapFn (mapRegionPages addr size) s [] herr p
        (Or.inr hp)
    exact mapPagesLoop_all_present mapFn (mapRegionPages addr size)
      (mapRegion mapFn s addr size).pages [] hall
  · intro mapFn s addr size p hp
    rcases mapPagesLoop_calls_sub mapFn (mapRegionPages addr size) s [] p hp with
      h | ⟨_, h⟩
    · exact absurd h (List.not_mem_nil p)
    · exact h

/-- Witness for C10 (amended): reserving `[0, 1)` twice — the second
call is a no-op on the reservation set and calls the primitive on no
page. -/
theorem mapRegion_idempotent_witness :
    mapRegion (fun _ => none) (mapRegion (fun _ => none) [] 0 1).pages 0 1 =
      ⟨none, (mapRegion (fun _ => none) [] 0 1).pages, []⟩ :=
  mapRegion_idempotent.1 (fun _ => none) [] 0 1 (by decide)

/-- C4: every page mapped during a discovery session is released on
every exit path.  For `locateRSDT`, the deferred cleanup passes exactly
the scan-window pages to the unmap primitive no matter how the function
returns (mapping error, root pointer found, or not found).  For
`DriverInit`, the deferred cleanup passes to the unmap primitive exactly
the pages in the final reservation set — each exactly once (the list is
duplicate-free) — on the success path and on every error path alike, and
`allocator.ReclaimRegions` is called if and only if every one of those
unmaps succeeded. -/
theorem discovery_cleanup_spec :
    (∀ (mapFn : Nat → Option Nat) (m : Nat → Nat),
      (locateRSDT mapFn m).unmapCalls = windowPages) ∧
    (∀ (mapFn unmapFn : Nat → Option Nat) (m : Nat → Nat) (a : Nat) (x : Bool),
      (DriverInit mapFn unmapFn m a x).unmapCalls =
        (parseRSDT mapFn m a x []).pages ∧
      (DriverInit mapFn unmapFn m a x).unmapCalls.Nodup ∧
      ((DriverInit mapFn unmapFn m a x).reclaimed = true ↔
        ∀ p ∈ (DriverInit mapFn unmapFn m a x).unmapCalls, unmapFn p = none)) := by
  constructor
  · intro mapFn m
    rw [locateRSDT]
    cases mapWindowLoop mapFn windowPages with
    | some e => rfl
    | none =>
      cases scanLoop m rsdpCandidates with
      | some r => cases r; rfl
      | none => rfl
  · intro mapFn unmapFn m a x
    refine ⟨rfl, parseRSDT_nodup mapFn m a x [] List.nodup_nil, ?_⟩
    show (!(parseRSDT mapFn m a x []).pages.any fun p => (unmapFn p).isSome) = true ↔ _
    rw [Bool.not_eq_true', List.any_eq_false]
    constructor
    · intro h p hp
      have hip := h p hp
      cases hu : unmapFn p with
      | none => rfl
      | some e =>
        rw [hu] at hip
        exact absurd rfl hip
    · intro h p hp
      rw [h p hp]
      simp

/-- C5: during the sub-table walk, a checksum mismatch from mapping a
sub-table skips exactly that entry (nothing is reported for it) and the
walk continues with the next entry; any other sub-table error aborts the
walk and is returned unchanged; and any error from mapping the root
table itself — a checksum mismatch included — is returned to the caller
unchanged with nothing reported. -/
theorem walk_error_policy :
    (∀ (mapFn : Nat → Option Nat) (m : Nat → Nat) (a : Nat) (x : Bool)
        (s : List Nat) (e : KernelError),
      (mapACPITable mapFn m s a).res = TableRes.err e →
      parseRSDT mapFn m a x s = ⟨some e, (mapACPITable mapFn m s a).pages, []⟩) ∧
    (∀ (mapFn : Nat → Option Nat) (m : Nat → Nat) (s : List Nat)
        (addr : Nat) (rest : List Nat) (rep : List (List Nat × Nat × Nat)),
      (mapACPITable mapFn m s addr).res =
          TableRes.err KernelError.tableChecksumMismatch →
      walkLoop mapFn m (addr :: rest) s rep =
        walkLoop mapFn m rest (mapACPITable mapFn m s addr).pages rep) ∧
    (∀ (mapFn : Nat → Option Nat) (m : Nat → Nat) (s : List Nat)
        (addr : Nat) (rest : List Nat) (rep : List (List Nat × Nat × Nat))
        (e : KernelError),
      e ≠ KernelError.tableChecksumMismatch →
      (mapACPITable mapFn m s addr).res = TableRes.err e →
      walkLoop mapFn m (addr :: rest) s rep =
        ⟨some e, (mapACPITable mapFn m s addr).pages, rep⟩) := by
  refine ⟨?_, ?_, ?_⟩
  · intro mapFn m a x s e h
    rw [parseRSDT]
    simp only [h]
  · intro mapFn m s addr rest rep h
    rw [walkLoop]
    simp only [h]
  · intro mapFn m s addr rest rep e hne h
    rw [walkLoop]
    cases e with
    | missingRSDP => simp only [h]
    | tableChecksumMismatch => exact absurd rfl hne
    | mapFailure c => simp only [h]

/-- Witness for C5: a corrupt table at address 0 produces a checksum
mismatch, which is skipped inside the walk but returned unchanged when
it is the root table; a mapping failure aborts the walk unchanged. -/
theorem walk_error_policy_witness :
    parseRSDT (fun _ => none) memBadTable 0 false [] =
      ⟨some KernelError.tableChecksumMismatch,
        (mapACPITable (fun _ => none) memBadTable [] 0).pages, []⟩ ∧
    walkLoop (fun _ => none) memBadTable [0] [] [] =
      walkLoop (fun _ => none) memBadTable []
        (mapACPITable (fun _ => none) memBadTable [] 0).pages [] ∧
    walkLoop (fun _ => some 7) memBadTable [0] [] [] =
      ⟨some (KernelError.mapFailure 7),
        (mapACPITable (fun _ => some 7) memBadTable [] 0).pages, []⟩ :=
  ⟨walk_error_policy.1 (fun _ => none) memBadTable 0 false []
      KernelError.tableChecksumMismatch (by decide),
    walk_error_policy.2.1 (fun _ => none) memBadTable [] 0 [] [] (by decide),
    walk_error_policy.2.2 (fun _ => some 7) memBadTable [] 0 [] []
      (KernelError.mapFailure 7) (by decide) (by decide)⟩

/-- A successful `mapACPITable` returns exactly the header read from the
table address. -/
lemma mapACPITable_ok_header (mapFn : Nat → Option Nat) (m : Nat → Nat)
    (s : List Nat) (a : Nat) (hdr : SdtHeader)
    (h : (mapACPITable mapFn m s a).res = TableRes.ok hdr) :
    hdr = readSdtHeader m a := by
  rw [mapACPITable] at h
  split at h
  · exact absurd h (by simp)
  · dsimp only at h
    split at h
    · exact absurd h (by simp)
    · split at h
      · simp only [TableRes.ok.injEq] at h
        exact h.symm
      · exact absurd h (by simp)

/-- `parseRSDT` on a successfully mapped root walks exactly the derived
address list. -/
lemma parseRSDT_ok_unfold (mapFn : Nat → Option Nat) (m : Nat → Nat)
    (a : Nat) (x : Bool) (s : List Nat) (hdr : SdtHeader)
    (h : (mapACPITable mapFn m s a).res = TableRes.ok hdr) :
    parseRSDT mapFn m a x s =
      walkLoop mapFn m (sdtAddressList m a x (rootPayloadLen hdr.length))
        (mapACPITable mapFn m s a).pages [] := by
  rw [parseRSDT]
  simp only [h]

/-- Element access into the sub-table address array (extended width). -/
lemma sdtAddressList_get_true (m : Nat → Nat) (a pl i : Nat) (hi : i < pl / 8) :
    (sdtAddressList m a true pl).getD i 0 =
      le64 m (a + sizeofSdtHeader + 8 * i) := by
  have hlen : i < ((List.range (pl / 8)).map fun j =>
      le64 m (a + sizeofSdtHeader + 8 * j)).length := by simpa
  rw [sdtAddressList, List.getD_eq_getElem _ _ hlen, List.getElem_map,
    List.getElem_range]

/-- Element access into the sub-table address array (standard width). -/
lemma sdtAddressList_get_false (m : Nat → Nat) (a pl i : Nat) (hi : i < pl / 4) :
    (sdtAddressList m a false pl).getD i 0 =
      le32 m (a + sizeofSdtHeader + 4 * i) := by
  have hlen : i < ((List.range (pl / 4)).map fun j =>
      le32 m (a + sizeofSdtHeader + 4 * j)).length := by simpa
  rw [sdtAddressList, List.getD_eq_getElem _ _ hlen, List.getElem_map,
    List.getElem_range]

/-- C6: for a successfully mapped root table whose declared length `L` is
at least the header size, the walker reads exactly `(L - 36) / 8`
sequential 64-bit addresses when extended width is selected and exactly
`(L - 36) / 4` sequential 32-bit addresses otherwise, starting
immediately after the header; in particular `L = 36 + 16` with extended
width yields exactly 2 sub-table addresses. -/
theorem walk_entry_count (mapFn : Nat → Option Nat) (m : Nat → Nat)
    (s : List Nat) (a : Nat) (hdr : SdtHeader)
    (hok : (mapACPITable mapFn m s a).res = TableRes.ok hdr)
    (hge : sizeofSdtHeader ≤ hdr.length) :
    (∀ x, parseRSDT mapFn m a x s =
      walkLoop mapFn m (sdtAddressList m a x (rootPayloadLen hdr.length))
        (mapACPITable mapFn m s a).pages []) ∧
    rootPayloadLen hdr.length = hdr.length - sizeofSdtHeader ∧
    (sdtAddressList m a true (rootPayloadLen hdr.length)).length =
      (hdr.length - sizeofSdtHeader) / 8 ∧
    (sdtAddressList m a false (rootPayloadLen hdr.length)).length =
      (hdr.length - sizeofSdtHeader) / 4 ∧
    (∀ i, i < (hdr.length - sizeofSdtHeader) / 8 →
      (sdtAddressList m a true (rootPayloadLen hdr.length)).getD i 0 =
        le64 m (a + sizeofSdtHeader + 8 * i)) ∧
    (∀ i, i < (hdr.length - sizeofSdtHeader) / 4 →
      (sdtAddressList m a false (rootPayloadLen hdr.length)).getD i 0 =
        le32 m (a + sizeofSdtHeader + 4 * i)) ∧
    (hdr.length = sizeofSdtHeader + 16 →
      (sdtAddressList m a true (rootPayloadLen hdr.length)).length = 2) := by
  have hlt : hdr.length < 2 ^ 32 := by
    rw [mapACPITable_ok_header mapFn m s a hdr hok, readSdtHeader]
    exact le32_lt m (a + 4)
  have hpl : rootPayloadLen hdr.length = hdr.length - sizeofSdtHeader := by
    rw [rootPayloadLen]
    rw [sizeofSdtHeader] at hge ⊢
    omega
  refine ⟨fun x => parseRSDT_ok_unfold mapFn m a x s hdr hok, hpl, ?_, ?_, ?_, ?_, ?_⟩
  · rw [hpl, sdtAddressList, List.length_map, List.length_range]
  · rw [hpl, sdtAddressList, List.length_map, List.length_range]
  · intro i hi
    rw [hpl]
    exact sdtAddressList_get_true m a _ i hi
  · intro i hi
    rw [hpl]
    exact sdtAddressList_get_false m a _ i hi
  · intro h52
    rw [hpl, sdtAddressList, List.length_map, List.length_range, h52,
      sizeofSdtHeader]

/-- Witness for C6: for the concrete root table of declared length 52,
the extended-width walker reads exactly 2 sub-table addresses. -/
theorem walk_entry_count_witness :
    (sdtAddressList memRoot52 0 true
      (rootPayloadLen (readSdtHeader memRoot52 0).length)).length = 2 :=
  (walk_entry_count (fun _ => none) memRoot52 [] 0 (readSdtHeader memRoot52 0)
    (by decide) (by decide)).2.2.2.2.2.2 (by decide)

/-- C8: the walker computes the root payload length as
`header.length - 36` in wrapping unsigned 32-bit arithmetic with no
lower-bound check on `header.length`: whenever a mapped root table
declares a length smaller than the 36-byte header, the subtraction wraps
modulo `2^32`, the derived entry count is the wrapped value divided by 8
(extended) or 4 (standard), and the walk proceeds over that many entries
instead of rejecting the table. -/
theorem walk_length_underflow (mapFn : Nat → Option Nat) (m : Nat → Nat)
    (s : List Nat) (a : Nat) (hdr : SdtHeader)
    (hok : (mapACPITable mapFn m s a).res = TableRes.ok hdr)
    (hlt : hdr.length < sizeofSdtHeader) :
    rootPayloadLen hdr.length = hdr.length + 2 ^ 32 - sizeofSdtHeader ∧
    (sdtAddressList m a true (rootPayloadLen hdr.length)).length =
      (hdr.length + 2 ^ 32 - sizeofSdtHeader) / 8 ∧
    (sdtAddressList m a false (rootPayloadLen hdr.length)).length =
      (hdr.length + 2 ^ 32 - sizeofSdtHeader) / 4 ∧
    (∀ x, parseRSDT mapFn m a x s =
      walkLoop mapFn m (sdtAddressList m a x (rootPayloadLen hdr.length))
        (mapACPITable mapFn m s a).pages []) := by
  have hpl : rootPayloadLen hdr.length = hdr.length + 2 ^ 32 - sizeofSdtHeader := by
    rw [rootPayloadLen]
    rw [sizeofSdtHeader] at hlt ⊢
    omega
  refine ⟨hpl, ?_, ?_, fun x => parseRSDT_ok_unfold mapFn m a x s hdr hok⟩
  · rw [hpl, sdtAddressList, List.length_map, List.length_range]
  · rw [hpl, sdtAddressList, List.length_map, List.length_range]

/-- Witness for C8: the all-zero memory yields a root table that maps
successfully with declared length 0 (the vacuous checksum passes), and
the payload length wraps to `2^32 - 36` instead of the table being
rejected. -/
theorem walk_length_underflow_witness :
    rootPayloadLen (readSdtHeader (fun _ => 0) 0).length =
      (readSdtHeader (fun _ => 0) 0).length + 2 ^ 32 - sizeofSdtHeader :=
  (walk_length_underflow (fun _ => none) (fun _ => 0) [] 0
    (readSdtHeader (fun _ => 0) 0) (by decide) (by decide)).1

/-- C9: `probeForACPI` returns no driver instance exactly when
`locateRSDT` fails; when no candidate in the scan window matches the
signature (and the window maps successfully), `locateRSDT` fails with
the missing-RSDP error and `probeForACPI` returns `nil`; and on success
the returned driver stores exactly the address and width flag that
`locateRSDT` produced. -/
theorem probe_locate_agreement :
    (∀ (mapFn : Nat → Option Nat) (m : Nat → Nat),
      probeForACPI mapFn m = none ↔
        ∃ e, (locateRSDT mapFn m).res = LocateRes.err e) ∧
    (∀ (mapFn : Nat → Option Nat) (m : Nat → Nat) (a : Nat) (x : Bool),
      (locateRSDT mapFn m).res = LocateRes.found a x →
        probeForACPI mapFn m = some (a, x)) ∧
    (∀ (mapFn : Nat → Option Nat) (m : Nat → Nat),
      (∀ p ∈ windowPages, mapFn p = none) →
      (∀ q ∈ rsdpCandidates, sigMatch m q = false) →
      (locateRSDT mapFn m).res = LocateRes.err KernelError.missingRSDP ∧
        probeForACPI mapFn m = none) := by
  refine ⟨?_, ?_, ?_⟩
  · intro mapFn m
    rcases hL : locateRSDT mapFn m with ⟨res, u⟩
    cases res with
    | found a x => simp [probeForACPI, hL]
    | err e => simp [probeForACPI, hL]
  · intro mapFn m a x h
    rcases hL : locateRSDT mapFn m with ⟨res, u⟩
    rw [hL] at h
    simp only at h
    rw [h] at hL
    rw [probeForACPI, hL]
  · intro mapFn m hwin hsig
    have h1 : mapWindowLoop mapFn windowPages = none :=
      mapWindowLoop_ok mapFn windowPages hwin
    have h2 : scanLoop m rsdpCandidates = none := by
      refine scanLoop_none m rsdpCandidates fun q hq => ?_
      rw [scanStep, hsig q hq]
      simp
    constructor
    · rw [locateRSDT, h1, h2]
    · rw [probeForACPI, locateRSDT, h1, h2]

/-- Witness for C9: on all-zero memory no candidate matches the
signature, so `locateRSDT` fails with the missing-RSDP error and
`probeForACPI` returns `nil`. -/
theorem probe_locate_agreement_witness :
    (locateRSDT (fun _ => none) (fun _ => 0)).res =
        LocateRes.err KernelError.missingRSDP ∧
      probeForACPI (fun _ => none) (fun _ => 0) = none :=
  probe_locate_agreement.2.2 (fun _ => none) (fun _ => 0)
    (fun _ _ => rfl) (fun _ _ => rfl)

/-- Beyond the byte region (at most 48 bytes) the image reads zero. -/
lemma regionMem_far (bytes : List Nat) (hlen : bytes.length ≤ 48) (a : Nat)
    (ha : rsdpLocationLow + 48 ≤ a) : byteAt (regionMem bytes) a = 0 := by
  unfold byteAt regionMem
  rw [if_neg (by omega)]

/-- For a region image, every candidate other than the window base fails
the scan step, provided the two candidates that can still peek into the
region (base+16 and base+32) are checked to fail. -/
lemma regionMem_scan_none (bytes : List Nat) (hlen : bytes.length ≤ 48)
    (h1 : scanStep (regionMem bytes) (rsdpLocationLow + 16) = none)
    (h2 : scanStep (regionMem bytes) (rsdpLocationLow + 32) = none) :
    ∀ q ∈ rsdpCandidates, q ≠ rsdpLocationLow →
      scanStep (regionMem bytes) q = none := by
  intro q hq hne
  rcases List.mem_range'.mp hq with ⟨k, hk, rfl⟩
  by_cases h1q : rsdpLocationLow + 16 * k = rsdpLocationLow + 16
  · rw [h1q]; exact h1
  · by_cases h2q : rsdpLocationLow + 16 * k = rsdpLocationLow + 32
    · rw [h2q]; exact h2
    · have hk3 : rsdpLocationLow + 48 ≤ rsdpLocationLow + 16 * k := by omega
      have hb := regionMem_far bytes hlen _ hk3
      have hs := sigMatch_false_of_first (regionMem bytes) _ (by rw [hb]; decide)
      simp [scanStep, hs]

/-- The window base is one of the scan candidates. -/
lemma rsdpLocationLow_mem_candidates : rsdpLocationLow ∈ rsdpCandidates :=
  List.mem_range'.mpr ⟨0, by decide, by simp⟩

/-- If the first candidate (the window base) yields a hit and every
other candidate fails, `locateRSDT` returns that hit. -/
lemma locate_first_candidate (mapFn : Nat → Option Nat) (m : Nat → Nat)
    (addr : Nat) (x : Bool)
    (hwin : ∀ q ∈ windowPages, mapFn q = none)
    (h0 : scanStep m rsdpLocationLow = some (addr, x))
    (hothers : ∀ q ∈ rsdpCandidates, q ≠ rsdpLocationLow →
      scanStep m q = none) :
    (locateRSDT mapFn m).res = LocateRes.found addr x := by
  have h1 := mapWindowLoop_ok mapFn windowPages hwin
  have h2 : scanLoop m rsdpCandidates = some (addr, x) :=
    scanLoop_hit m rsdpLocationLow (addr, x) rsdpCandidates
      rsdpLocationLow_mem_candidates hothers h0
  rw [locateRSDT, h1, h2]

/-- C1 counterexample: a candidate whose signature matches, whose
revision byte is 2 > 0, and whose checksum over the structure's
self-declared length field (here 20) is valid — yet `locateRSDT` does
not return its extended root address: the code never reads the length
field and validates the checksum over the structure's fixed in-memory
size instead (which fails here, for the 40-byte padded size as well as
for the raw 36 declared bytes), skips the candidate, and reports the
RSDP as missing. -/
theorem locate_extended_self_length_cex :
    sigMatch (regionMem bytesC1Cex) rsdpLocationLow = true ∧
    byteAt (regionMem bytesC1Cex) (rsdpLocationLow + 15) = 2 ∧
    validTable (regionMem bytesC1Cex) rsdpLocationLow
      (le32 (regionMem bytesC1Cex) (rsdpLocationLow + 20)) = true ∧
    validTable (regionMem bytesC1Cex) rsdpLocationLow
      sizeofRsdpDescriptor2 = false ∧
    validTable (regionMem bytesC1Cex) rsdpLocationLow 36 = false ∧
    (locateRSDT (fun _ => none) (regionMem bytesC1Cex)).res =
      LocateRes.err KernelError.missingRSDP := by
  refine ⟨by decide, by decide, by decide, by decide, by decide, ?_⟩
  have h1 := mapWindowLoop_ok (fun _ => none) windowPages (fun _ _ => rfl)
  have h2 : scanLoop (regionMem bytesC1Cex) rsdpCandidates = none := by
    refine scanLoop_none _ _ fun q hq => ?_
    by_cases hql : q = rsdpLocationLow
    · subst hql; decide
    · exact regionMem_scan_none bytesC1Cex (by decide) (by decide) (by decide)
        q hq hql
  rw [locateRSDT, h1, h2]

/-- C1 amended: for a candidate in the scan window whose 8-byte
signature matches, whose revision byte is nonzero, and which is the only
candidate yielding a hit, `locateRSDT` validates the checksum over the
extended structure's fixed in-memory size (40 bytes: the 36 structure
bytes plus 4 trailing padding bytes) — not over its self-declared length
field — and, when that checksum is valid, returns the 64-bit extended
root-table address with extended-width = true. -/
theorem locate_extended_path (mapFn : Nat → Option Nat) (m : Nat → Nat)
    (p : Nat)
    (hwin : ∀ q ∈ windowPages, mapFn q = none)
    (hmem : p ∈ rsdpCandidates)
    (hothers : ∀ q ∈ rsdpCandidates, q ≠ p → scanStep m q = none)
    (hsig : sigMatch m p = true)
    (hrev : byteAt m (p + 15) ≠ rsdpRevisionACPI1)
    (hsum : validTable m p sizeofRsdpDescriptor2 = true) :
    (locateRSDT mapFn m).res = LocateRes.found (le64 m (p + 24)) true := by
  have hbeq : (byteAt m (p + 15) == rsdpRevisionACPI1) = false :=
    beq_eq_false_iff_ne.mpr hrev
  have hstep : scanStep m p = some (le64 m (p + 24), true) := by
    simp [scanStep, hsig, hbeq, hsum]
  have h2 : scanLoop m rsdpCandidates = some (le64 m (p + 24), true) :=
    scanLoop_hit m p (le64 m (p + 24), true) rsdpCandidates hmem hothers hstep
  rw [locateRSDT, mapWindowLoop_ok mapFn windowPages hwin, h2]

/-- Witness for C1 (amended): the revision-2 image whose 40 in-memory
bytes sum to 0 mod 256 makes `locateRSDT` return its 64-bit extended
address 0x1234 with extended-width = true. -/
theorem locate_extended_path_witness :
    (locateRSDT (fun _ => none) (regionMem bytesC1Valid)).res =
        LocateRes.found (le64 (regionMem bytesC1Valid) (rsdpLocationLow + 24))
          true ∧
      le64 (regionMem bytesC1Valid) (rsdpLocationLow + 24) = 0x1234 :=
  ⟨locate_extended_path (fun _ => none) (regionMem bytesC1Valid)
      rsdpLocationLow (fun _ _ => rfl) rsdpLocationLow_mem_candidates
      (regionMem_scan_none bytesC1Valid (by decide) (by decide) (by decide))
      (by decide) (by decide) (by decide),
    by decide⟩

/-- C2 counterexample: a candidate whose signature matches and whose
20-byte V1 checksum is valid, but whose revision byte is 2 — the claim
says a valid V1 checksum always yields the 32-bit root address with
extended-width = false, yet `locateRSDT` never consults the V1 checksum
for a nonzero revision: it takes the extended path and returns the
64-bit address 0x5555 with extended-width = true instead of the 32-bit
address 0x9999 with false. -/
theorem locate_v1_always_first_cex :
    sigMatch (regionMem bytesC2Cex) rsdpLocationLow = true ∧
    validTable (regionMem bytesC2Cex) rsdpLocationLow
      sizeofRsdpDescriptor = true ∧
    le32 (regionMem bytesC2Cex) (rsdpLocationLow + 16) = 0x9999 ∧
    (locateRSDT (fun _ => none) (regionMem bytesC2Cex)).res =
      LocateRes.found 0x5555 true := by
  refine ⟨by decide, by decide, by decide, ?_⟩
  exact locate_first_candidate (fun _ => none) (regionMem bytesC2Cex)
    0x5555 true (fun _ _ => rfl) (by decide)
    (regionMem_scan_none bytesC2Cex (by decide) (by decide) (by decide))

/-- C2 amended: for a candidate in the scan window whose 8-byte
signature matches and whose revision byte is 0 (and which is the only
candidate yielding a hit), `locateRSDT` validates the checksum over the
fixed 20-byte V1 structure and, when it is valid, returns the 32-bit
root-table address with extended-width = false; in particular a
candidate with revision 0, a valid 20-byte V1 checksum, and a valid root
address yields that address with extended-width = false. -/
theorem locate_v1_path (mapFn : Nat → Option Nat) (m : Nat → Nat) (p : Nat)
    (hwin : ∀ q ∈ windowPages, mapFn q = none)
    (hmem : p ∈ rsdpCandidates)
    (hothers : ∀ q ∈ rsdpCandidates, q ≠ p → scanStep m q = none)
    (hsig : sigMatch m p = true)
    (hrev : byteAt m (p + 15) = rsdpRevisionACPI1)
    (hsum : validTable m p sizeofRsdpDescriptor = true) :
    (locateRSDT mapFn m).res = LocateRes.found (le32 m (p + 16)) false := by
  have hstep : scanStep m p = some (le32 m (p + 16), false) := by
    simp [scanStep, hsig, hrev, hsum]
  have h2 : scanLoop m rsdpCandidates = some (le32 m (p + 16), false) :=
    scanLoop_hit m p (le32 m (p + 16), false) rsdpCandidates hmem hothers hstep
  rw [locateRSDT, mapWindowLoop_ok mapFn windowPages hwin, h2]

/-- Witness for C2 (amended): the revision-0 image with a valid 20-byte
V1 checksum makes `locateRSDT` return its 32-bit root address 0x9999
with extended-width = false. -/
theorem locate_v1_path_witness :
    (locateRSDT (fun _ => none) (regionMem bytesC2Valid)).res =
        LocateRes.found (le32 (regionMem bytesC2Valid) (rsdpLocationLow + 16))
          false ∧
      le32 (regionMem bytesC2Valid) (rsdpLocationLow + 16) = 0x9999 :=
  ⟨locate_v1_path (fun _ => none) (regionMem bytesC2Valid)
      rsdpLocationLow (fun _ _ => rfl) rsdpLocationLow_mem_candidates
      (regionMem_scan_none bytesC2Valid (by decide) (by decide) (by decide))
      (by decide) (by decide) (by decide),
    by decide⟩
